import Mathlib

/-!
Verification of the filtering/aggregation engine of the sales analysis
dashboard (`streamlit_dashboard.py`).

The pandas data-frame pipeline is modelled shallowly: a data frame is a
`List Record`, pandas `Series.sum`/`mean`/`nunique` become list operations
over `ℚ`, `groupby(k)[v].sum()` becomes `groupSum` (group keys sorted
ascending, as pandas emits them), `.head(n)` is `List.take n`, and
`.round(2)` is `round2` (numpy round-half-to-even at two decimals).
`sort_values(ascending=False)` runs with the default `kind='quicksort'`,
which pandas documents as not stable, so it is modelled by its contract
`IsSortValuesDesc`: some permutation of the input that is weakly descending
in the value, the relative order of exactly-tied entries unspecified.
`sortDescBy` is a stable refinement of that contract, used only to model
the summary-table sort of line 294, whose verified property does not
depend on the order of ties.  `Series.mean` of an empty series is NaN in
pandas; NaN is modelled as `none : Option ℚ`.
-/

namespace SalesDashboard

/-- A normalized sales transaction line (one row of the loaded data frame),
with the derived calendar attributes the dashboard reads. -/
structure Record where
  orderNumber : Nat
  sales : ℚ
  quantityOrdered : Nat
  priceEach : ℚ
  productLine : String
  productCode : String
  dealSize : String
  country : String
  customerName : String
  year : Int
  month : Nat
  quarter : Nat
  weekday : String
deriving DecidableEq

/-- The four sidebar multiselect selections (lines 81, 90, 99, 108). -/
structure FilterSpec where
  selectedYears : List Int
  selectedProductLines : List String
  selectedDealSizes : List String
  selectedCountries : List String
deriving DecidableEq

/-- One row's filter predicate: the conjunction of the four `isin`
membership tests of lines 117-120. -/
def recordPasses (s : FilterSpec) (r : Record) : Bool :=
  decide (r.year ∈ s.selectedYears) &&
  decide (r.productLine ∈ s.selectedProductLines) &&
  decide (r.dealSize ∈ s.selectedDealSizes) &&
  decide (r.country ∈ s.selectedCountries)

/-- `filtered_df` of lines 116-121: boolean-mask filtering of the data
frame by the four `isin` tests. -/
def filteredDf (df : List Record) (s : FilterSpec) : List Record :=
  df.filter (recordPasses s)

/-- Insert into an ascending list (helper for the sorted key order pandas
`groupby` produces). -/
def insertAsc (x : String) : List String → List String
  | [] => [x]
  | y :: ys => if x ≤ y then x :: y :: ys else y :: insertAsc x ys

/-- Ascending insertion sort on strings; models the ascending group-key
order of a pandas `groupby`. -/
def sortAsc : List String → List String
  | [] => []
  | x :: xs => insertAsc x (sortAsc xs)

/-- Stable insert for the descending sort: `x` is placed before the first
element whose value does not exceed `x`'s, so elements with equal values
keep their original relative order. -/
def insertDescBy {α : Type} (vf : α → ℚ) (x : α) : List α → List α
  | [] => [x]
  | y :: ys => if vf y ≤ vf x then x :: y :: ys else y :: insertDescBy vf x ys

/-- Stable descending insertion sort by a value projection: one admissible
refinement of the unstable `sort_values(ascending=False)` (see
`IsSortValuesDesc` below).  It models the `sort_values('Total Sales',
ascending=False)` of line 294, where the property proved about the rows is
independent of the order of ties. -/
def sortDescBy {α : Type} (vf : α → ℚ) : List α → List α
  | [] => []
  | x :: xs => insertDescBy vf x (sortDescBy vf xs)

/-- The contract pandas documents for `sort_values(ascending=False)` with
the default `kind='quicksort'`: the output is some permutation of the
input that is weakly descending in the value.  Quicksort is not stable
(only `mergesort`/`stable` are), so the relative order of entries with
exactly equal values is unspecified — every such permutation is an
admissible output of the program. -/
def IsSortValuesDesc (input out : List (String × ℚ)) : Prop :=
  out.Perm input ∧ out.Pairwise (fun a b => b.2 ≤ a.2)

/-- `nunique`: the number of distinct values of a series. -/
def nunique {β : Type} [DecidableEq β] (l : List β) : Nat :=
  l.dedup.length

/-- `df.groupby(key)[val].sum()` (for example line 162): one `(key, sum)`
pair per distinct observed key, keys ascending. -/
def groupSum (df : List Record) (key : Record → String) (val : Record → ℚ) :
    List (String × ℚ) :=
  (sortAsc ((df.map key).dedup)).map
    (fun k => (k, ((df.filter (fun r => decide (key r = k))).map val).sum))

/-- `top_n result n out`: `out` is an admissible output of
`result.sort_values(ascending=False).head(n)` (lines 191, 209) — the
length-`n` prefix of some admissible unstable descending sort of
`result`. -/
def top_n (result : List (String × ℚ)) (n : Nat)
    (out : List (String × ℚ)) : Prop :=
  ∃ s, IsSortValuesDesc result s ∧ out = s.take n

/-- `Series.mean()`: NaN (modelled `none`) on an empty series, otherwise
the sum divided by the length. -/
def seriesMean (l : List ℚ) : Option ℚ :=
  if l.length = 0 then none else some (l.sum / (l.length : ℚ))

/-- The five on-screen KPI scalars of lines 130-150. -/
structure KPISnapshot where
  total_sales : ℚ
  total_orders : Nat
  avg_order_value : Option ℚ
  total_customers : Nat
  total_products : Nat
deriving DecidableEq

/-- The KPI section of `main` (lines 130-150): total sales is the sum of
SALES, orders/customers/products are `nunique` counts, and the average
order value is `filtered_df['SALES'].mean()`. -/
def compute_kpis (df : List Record) : KPISnapshot :=
  { total_sales := (df.map (fun r => r.sales)).sum
  , total_orders := nunique (df.map (fun r => r.orderNumber))
  , avg_order_value := seriesMean (df.map (fun r => r.sales))
  , total_customers := nunique (df.map (fun r => r.customerName))
  , total_products := nunique (df.map (fun r => r.productCode)) }

/-- numpy/pandas round-half-to-even of a rational to the nearest integer. -/
def roundHalfEven (x : ℚ) : ℤ :=
  let f := ⌊x⌋
  if x - f < 1/2 then f
  else if 1/2 < x - f then f + 1
  else if f % 2 = 0 then f else f + 1

/-- `.round(2)`: round to two decimal places, half to even (numpy). -/
def round2 (x : ℚ) : ℚ :=
  (roundHalfEven (x * 100) : ℚ) / 100

/-- One row of the customer performance table of lines 286-295. -/
structure SummaryRow where
  key : String
  totalSales : ℚ
  avgOrderValue : ℚ
  totalOrders : Nat
  totalQuantity : Nat
  revenuePerOrder : ℚ
deriving DecidableEq

/-- The aggregated row for one customer group `k` (lines 286-293):
`agg({SALES: [sum, mean], ORDERNUMBER: nunique, QUANTITYORDERED: sum})`
followed by `.round(2)` and the derived
`Revenue per Order = (Total Sales / Total Orders).round(2)` — there is no
zero-denominator guard in the source. -/
def customerRow (df : List Record) (k : String) : SummaryRow :=
  let g := df.filter (fun r => decide (r.customerName = k))
  let total := round2 ((g.map (fun r => r.sales)).sum)
  let orders := nunique (g.map (fun r => r.orderNumber))
  { key := k
  , totalSales := total
  , avgOrderValue := round2 (((g.map (fun r => r.sales)).sum) / (g.length : ℚ))
  , totalOrders := orders
  , totalQuantity := (g.map (fun r => r.quantityOrdered)).sum
  , revenuePerOrder := round2 (total / (orders : ℚ)) }

/-- `customer_analysis` of lines 286-295: group by CUSTOMERNAME (keys
ascending), aggregate each group, sort by Total Sales descending, keep the
first 20 rows. -/
def summarize (df : List Record) : List SummaryRow :=
  (sortDescBy (fun row => row.totalSales)
    ((sortAsc ((df.map (fun r => r.customerName)).dedup)).map (customerRow df))).take 20

/-- The reindex target of lines 334-336. -/
def weekdayNames : List String :=
  ["Monday", "Tuesday", "Wednesday", "Thursday", "Friday", "Saturday", "Sunday"]

/-- Value lookup in an aggregation result; a missing key yields `none`
(pandas `reindex` fills NaN there). -/
def lookupValue (l : List (String × ℚ)) (k : String) : Option ℚ :=
  (l.find? (fun p => decide (p.1 = k))).map Prod.snd

/-- `weekday_sales` of lines 334-336:
`groupby('Weekday')['SALES'].sum().reindex([Monday..Sunday])` — the grouped
sums reindexed over the full week, absent weekdays becoming NaN (`none`). -/
def weekday_sales (df : List Record) : List (String × Option ℚ) :=
  weekdayNames.map
    (fun d => (d, lookupValue (groupSum df (fun r => r.weekday) (fun r => r.sales)) d))

/-- The ten columns the spec lists as required (upper-case source names). -/
def requiredColumns : List String :=
  ["ORDERDATE", "SALES", "ORDERNUMBER", "PRODUCTLINE", "DEALSIZE",
   "COUNTRY", "CUSTOMERNAME", "PRODUCTCODE", "QUANTITYORDERED", "PRICEEACH"]

/-- The optional columns dropped at lines 55-58. -/
def optionalColumns : List String := ["ADDRESSLINE2", "STATE", "TERRITORY"]

/-- The five columns derived at lines 48-52. -/
def derivedColumns : List String := ["Year", "Month", "MonthName", "Quarter", "Weekday"]

/-- Column-level model of `load_data` (lines 41-63).  The only required
column the function itself reads is ORDERDATE (line 47): if it is absent,
the `df['ORDERDATE']` access raises a KeyError, which the
`except FileNotFoundError` handler does not catch, so the error escapes to
the caller and no frame is produced.  Otherwise the five derived columns
are appended and any optional columns present are dropped.  None of the
other nine required columns is checked. -/
def load_data (cols : List String) : Except String (List String) :=
  if "ORDERDATE" ∈ cols then
    .ok ((cols ++ derivedColumns).filter (fun c => decide (c ∉ optionalColumns)))
  else
    .error "KeyError: ORDERDATE"

/-- A calendar date as parsed from ORDERDATE. -/
structure OrderDate where
  year : Nat
  month : Nat
  day : Nat
deriving DecidableEq

/-- `dt.month_name()` for months 1-12. -/
def monthName : Nat → String
  | 1 => "January"
  | 2 => "February"
  | 3 => "March"
  | 4 => "April"
  | 5 => "May"
  | 6 => "June"
  | 7 => "July"
  | 8 => "August"
  | 9 => "September"
  | 10 => "October"
  | 11 => "November"
  | 12 => "December"
  | _ => ""

/-- Zeller's congruence: day-of-week index of a Gregorian date,
`0 = Saturday, 1 = Sunday, ..., 6 = Friday`. -/
def dayOfWeekIndex (y m d : Nat) : Nat :=
  let m' := if m ≤ 2 then m + 12 else m
  let y' := if m ≤ 2 then y - 1 else y
  (d + 13 * (m' + 1) / 5 + y' % 100 + y' % 100 / 4 + y' / 100 / 4 + 5 * (y' / 100)) % 7

/-- Weekday name from a Zeller index. -/
def dayNameOfIndex (i : Nat) : String :=
  if i = 0 then "Saturday"
  else if i = 1 then "Sunday"
  else if i = 2 then "Monday"
  else if i = 3 then "Tuesday"
  else if i = 4 then "Wednesday"
  else if i = 5 then "Thursday"
  else "Friday"

/-- `dt.day_name()` of a date. -/
def day_name (dt : OrderDate) : String :=
  dayNameOfIndex (dayOfWeekIndex dt.year dt.month dt.day)

/-- The calendar attributes derived from ORDERDATE at lines 48-52. -/
structure DerivedFields where
  year : Nat
  month : Nat
  monthLabel : String
  quarter : Nat
  weekday : String
deriving DecidableEq

/-- Lines 48-52 of `load_data`: `Year`, `Month`, `MonthName`,
`Quarter` (pandas `dt.quarter` is `(month - 1) / 3 + 1`) and `Weekday`,
all derived from the parsed order date alone. -/
def deriveCalendar (dt : OrderDate) : DerivedFields :=
  { year := dt.year
  , month := dt.month
  , monthLabel := monthName dt.month
  , quarter := (dt.month - 1) / 3 + 1
  , weekday := day_name dt }

/-- The metric/value pairs written to the export's Summary sheet. -/
structure SummarySheet where
  metricNames : List String
  totalSalesValue : ℚ
  totalOrdersValue : Nat
  avgOrderValueValue : Option ℚ
  totalCustomersValue : Nat
  totalProductsValue : Nat
deriving DecidableEq

/-- The Summary sheet built inside `convert_df_to_excel` (lines 364-375):
five metric names with the values `df['SALES'].sum()`,
`df['ORDERNUMBER'].nunique()`, `df['SALES'].mean()`,
`df['CUSTOMERNAME'].nunique()`, `df['PRODUCTCODE'].nunique()`, computed
directly from the frame passed in (the filtered frame, line 380). -/
def convert_df_to_excel_summary (df : List Record) : SummarySheet :=
  { metricNames := ["Total Sales", "Total Orders", "Avg Order Value",
                    "Total Customers", "Total Products"]
  , totalSalesValue := (df.map (fun r => r.sales)).sum
  , totalOrdersValue := nunique (df.map (fun r => r.orderNumber))
  , avgOrderValueValue := seriesMean (df.map (fun r => r.sales))
  , totalCustomersValue := nunique (df.map (fun r => r.customerName))
  , totalProductsValue := nunique (df.map (fun r => r.productCode)) }

/-! Concrete sample rows, used to instantiate theorems with hypotheses and
to exhibit counterexamples. -/

/-- Sample row: order 1, 40.0 in sales, placed on a Monday. -/
def rec1 : Record :=
  { orderNumber := 1, sales := 40, quantityOrdered := 2, priceEach := 20
  , productLine := "Classic Cars", productCode := "P1", dealSize := "Small"
  , country := "USA", customerName := "K", year := 2004, month := 3
  , quarter := 1, weekday := "Monday" }

/-- Sample row: order 2, 35.0 in sales, same customer as `rec1`. -/
def rec2 : Record :=
  { orderNumber := 2, sales := 35, quantityOrdered := 1, priceEach := 35
  , productLine := "Classic Cars", productCode := "P2", dealSize := "Small"
  , country := "USA", customerName := "K", year := 2004, month := 3
  , quarter := 1, weekday := "Tuesday" }

/-- Sample row: order 3, 25.0 in sales, same customer as `rec1`. -/
def rec3 : Record :=
  { orderNumber := 3, sales := 25, quantityOrdered := 5, priceEach := 5
  , productLine := "Classic Cars", productCode := "P3", dealSize := "Small"
  , country := "USA", customerName := "K", year := 2004, month := 4
  , quarter := 2, weekday := "Wednesday" }

/-- A one-row frame whose only weekday is Monday. -/
def d1 : List Record := [rec1]

/-- A three-row frame: one customer, three distinct orders, 100.0 total. -/
def d5 : List Record := [rec1, rec2, rec3]

/-! Permutation and sortedness lemmas for the two insertion sorts. -/

theorem mem_insertAsc {x a : String} {l : List String} :
    a ∈ insertAsc x l ↔ a = x ∨ a ∈ l := by
  induction l with
  | nil => simp [insertAsc]
  | cons y ys ih =>
    by_cases h : x ≤ y
    · simp [insertAsc, h]
    · simp [insertAsc, h, ih]
      tauto

theorem insertAsc_perm (x : String) (l : List String) :
    (insertAsc x l).Perm (x :: l) := by
  induction l with
  | nil => simp [insertAsc]
  | cons y ys ih =>
    by_cases h : x ≤ y
    · simp [insertAsc, h]
    · rw [insertAsc, if_neg h]
      exact (ih.cons y).trans (List.Perm.swap x y ys)

theorem sortAsc_perm (l : List String) : (sortAsc l).Perm l := by
  induction l with
  | nil => simp [sortAsc]
  | cons x xs ih =>
    rw [sortAsc]
    exact (insertAsc_perm x (sortAsc xs)).trans (ih.cons x)

theorem insertAsc_pairwise {x : String} {l : List String}
    (hl : l.Pairwise (· ≤ ·)) : (insertAsc x l).Pairwise (· ≤ ·) := by
  induction l with
  | nil => simp [insertAsc]
  | cons y ys ih =>
    rcases List.pairwise_cons.mp hl with ⟨hy, hys⟩
    by_cases h : x ≤ y
    · rw [insertAsc, if_pos h]
      refine List.pairwise_cons.mpr ⟨?_, hl⟩
      intro z hz
      rcases List.mem_cons.mp hz with rfl | hz
      · exact h
      · exact h.trans (hy z hz)
    · rw [insertAsc, if_neg h]
      refine List.pairwise_cons.mpr ⟨?_, ih hys⟩
      intro w hw
      rcases mem_insertAsc.mp hw with rfl | hw
      · exact le_of_not_le h
      · exact hy w hw

theorem sortAsc_pairwise (l : List String) : (sortAsc l).Pairwise (· ≤ ·) := by
  induction l with
  | nil => simp [sortAsc]
  | cons x xs ih => exact insertAsc_pairwise ih

theorem mem_insertDescBy {α : Type} {vf : α → ℚ} {x a : α} {l : List α} :
    a ∈ insertDescBy vf x l ↔ a = x ∨ a ∈ l := by
  induction l with
  | nil => simp [insertDescBy]
  | cons y ys ih =>
    by_cases h : vf y ≤ vf x
    · simp [insertDescBy, h]
    · simp [insertDescBy, h, ih]
      tauto

theorem insertDescBy_perm {α : Type} (vf : α → ℚ) (x : α) (l : List α) :
    (insertDescBy vf x l).Perm (x :: l) := by
  induction l with
  | nil => simp [insertDescBy]
  | cons y ys ih =>
    by_cases h : vf y ≤ vf x
    · simp [insertDescBy, h]
    · rw [insertDescBy, if_neg h]
      exact (ih.cons y).trans (List.Perm.swap x y ys)

theorem sortDescBy_perm {α : Type} (vf : α → ℚ) (l : List α) :
    (sortDescBy vf l).Perm l := by
  induction l with
  | nil => simp [sortDescBy]
  | cons x xs ih =>
    rw [sortDescBy]
    exact (insertDescBy_perm vf x (sortDescBy vf xs)).trans (ih.cons x)

theorem insertDescBy_sorted {α : Type} {vf : α → ℚ} {x : α} {l : List α}
    (hl : l.Pairwise (fun a b => vf b ≤ vf a)) :
    (insertDescBy vf x l).Pairwise (fun a b => vf b ≤ vf a) := by
  induction l with
  | nil => simp [insertDescBy]
  | cons y ys ih =>
    rcases List.pairwise_cons.mp hl with ⟨hy, hys⟩
    by_cases h : vf y ≤ vf x
    · rw [insertDescBy, if_pos h]
      refine List.pairwise_cons.mpr ⟨?_, hl⟩
      intro z hz
      rcases List.mem_cons.mp hz with rfl | hz
      · exact h
      · exact (hy z hz).trans h
    · rw [insertDescBy, if_neg h]
      refine List.pairwise_cons.mpr ⟨?_, ih hys⟩
      intro w hw
      rcases mem_insertDescBy.mp hw with rfl | hw
      · exact le_of_lt (lt_of_not_le h)
      · exact hy w hw

theorem sortDescBy_sorted {α : Type} (vf : α → ℚ) (l : List α) :
    (sortDescBy vf l).Pairwise (fun a b => vf b ≤ vf a) := by
  induction l with
  | nil => simp [sortDescBy]
  | cons x xs ih => exact insertDescBy_sorted ih

/-- The stable `sortDescBy` is one admissible behaviour of the unstable
`sort_values(ascending=False)`. -/
theorem sortDescBy_isSortValuesDesc (l : List (String × ℚ)) :
    IsSortValuesDesc l (sortDescBy Prod.snd l) :=
  ⟨sortDescBy_perm Prod.snd l, sortDescBy_sorted Prod.snd l⟩

/-- The tie-broken order the spec demands of Top-N: strictly descending
value, with exactly-equal values ordered by strictly ascending key.  The
stable `sortDescBy` achieves it on ascending-key input (next lemmas); the
program's unstable sort does not guarantee it (see the C1
counterexample). -/
def keyDescOrder {α : Type} (kf : α → String) (vf : α → ℚ) (a b : α) : Prop :=
  vf b < vf a ∨ (vf b = vf a ∧ kf a < kf b)

theorem insertDescBy_pairwise {α : Type} {kf : α → String} {vf : α → ℚ}
    {x : α} {l : List α} (hl : l.Pairwise (keyDescOrder kf vf))
    (hx : ∀ y ∈ l, kf x < kf y) :
    (insertDescBy vf x l).Pairwise (keyDescOrder kf vf) := by
  induction l with
  | nil => simp [insertDescBy]
  | cons y ys ih =>
    rcases List.pairwise_cons.mp hl with ⟨hy, hys⟩
    by_cases h : vf y ≤ vf x
    · rw [insertDescBy, if_pos h]
      refine List.pairwise_cons.mpr ⟨?_, hl⟩
      intro z hz
      rcases List.mem_cons.mp hz with rfl | hz
      · rcases lt_or_eq_of_le h with hlt | heq
        · exact Or.inl hlt
        · exact Or.inr ⟨heq, hx z (List.mem_cons_self _ _)⟩
      · have hvz : vf z ≤ vf y := by
          rcases hy z hz with hlt | ⟨heq, _⟩
          · exact le_of_lt hlt
          · exact le_of_eq heq
        rcases lt_or_eq_of_le (hvz.trans h) with hlt | heq
        · exact Or.inl hlt
        · exact Or.inr ⟨heq, hx z (List.mem_cons_of_mem _ hz)⟩
    · rw [insertDescBy, if_neg h]
      refine List.pairwise_cons.mpr
        ⟨?_, ih hys (fun z hz => hx z (List.mem_cons_of_mem _ hz))⟩
      intro w hw
      rcases mem_insertDescBy.mp hw with rfl | hw
      · exact Or.inl (lt_of_not_le h)
      · exact hy w hw

theorem sortDescBy_pairwise {α : Type} (kf : α → String) (vf : α → ℚ)
    (l : List α) (hl : l.Pairwise (fun a b => kf a < kf b)) :
    (sortDescBy vf l).Pairwise (keyDescOrder kf vf) := by
  induction l with
  | nil => simp [sortDescBy]
  | cons x xs ih =>
    rcases List.pairwise_cons.mp hl with ⟨hx, hxs⟩
    rw [sortDescBy]
    exact insertDescBy_pairwise (ih hxs)
      (fun y hy => hx y ((sortDescBy_perm vf xs).mem_iff.mp hy))

/-! Structural lemmas about `groupSum`. -/

theorem groupSum_keys (df : List Record) (key : Record → String)
    (val : Record → ℚ) :
    (groupSum df key val).map Prod.fst = sortAsc ((df.map key).dedup) := by
  rw [groupSum, List.map_map]
  exact List.map_id _ ▸ rfl

theorem groupSum_pairwise_keys (df : List Record) (key : Record → String)
    (val : Record → ℚ) :
    (groupSum df key val).Pairwise (fun a b => a.1 < b.1) := by
  rw [groupSum, List.pairwise_map]
  have h1 := sortAsc_pairwise ((df.map key).dedup)
  have h2 : (sortAsc ((df.map key).dedup)).Nodup :=
    (sortAsc_perm _).nodup_iff.mpr (List.nodup_dedup _)
  exact (h1.and h2).imp (fun h => lt_of_le_of_ne h.1 h.2)

/-! Summing one group per distinct key partitions the frame. -/

theorem sum_map_ite_zero {c : ℚ} {a : String} {ks : List String} (h : a ∉ ks) :
    (ks.map (fun k => if a = k then c else 0)).sum = 0 := by
  induction ks with
  | nil => simp
  | cons k ks ih =>
    have hne : a ≠ k := fun hak => h (hak ▸ List.mem_cons_self _ _)
    have hrest : a ∉ ks := fun hak => h (List.mem_cons_of_mem _ hak)
    simp [hne, ih hrest]

theorem sum_map_ite {c : ℚ} {a : String} {ks : List String}
    (hnd : ks.Nodup) (h : a ∈ ks) :
    (ks.map (fun k => if a = k then c else 0)).sum = c := by
  induction ks with
  | nil => exact absurd h (List.not_mem_nil a)
  | cons k ks ih =>
    rcases List.nodup_cons.mp hnd with ⟨hk, hnd'⟩
    rcases List.mem_cons.mp h with rfl | ha
    · simp [sum_map_ite_zero hk]
    · have hne : a ≠ k := fun hak => hk (hak ▸ ha)
      simp [hne, ih hnd' ha]

theorem sum_groups (key : Record → String) (val : Record → ℚ) :
    ∀ (df : List Record) (ks : List String), ks.Nodup →
      (∀ r ∈ df, key r ∈ ks) →
      (ks.map
        (fun k => ((df.filter (fun r => decide (key r = k))).map val).sum)).sum
        = (df.map val).sum := by
  intro df
  induction df with
  | nil => intro ks _ _; simp
  | cons r df ih =>
    intro ks hnd hcov
    have hstep : ∀ k,
        (((r :: df).filter (fun x => decide (key x = k))).map val).sum
          = (if key r = k then val r else 0)
            + ((df.filter (fun x => decide (key x = k))).map val).sum := by
      intro k
      by_cases h : key r = k <;> simp [List.filter_cons, h]
    rw [List.map_congr_left (fun k _ => hstep k), List.sum_map_add]
    rw [ih ks hnd (fun x hx => hcov x (List.mem_cons_of_mem _ hx))]
    rw [sum_map_ite hnd (hcov r (List.mem_cons_self _ _))]
    simp

/-! ### Claim theorems -/

/-- A row in product line "A" with 50.0 in sales. -/
def recA : Record :=
  { orderNumber := 10, sales := 50, quantityOrdered := 1, priceEach := 50
  , productLine := "A", productCode := "PA", dealSize := "Small"
  , country := "USA", customerName := "CA", year := 2004, month := 1
  , quarter := 1, weekday := "Monday" }

/-- A row in product line "B" with 50.0 in sales. -/
def recB : Record :=
  { orderNumber := 11, sales := 50, quantityOrdered := 1, priceEach := 50
  , productLine := "B", productCode := "PB", dealSize := "Small"
  , country := "USA", customerName := "CB", year := 2004, month := 1
  , quarter := 1, weekday := "Monday" }

/-- A frame whose two product-line groups tie exactly at 50.0. -/
def dTie : List Record := [recA, recB]

theorem strA_lt_strB : ("A" : String) < "B" := by
  simp only [String.lt_iff_toList_lt]
  decide

theorem groupSum_dTie :
    groupSum dTie (fun r => r.productLine) (fun r => r.sales)
      = [("A", (50 : ℚ)), ("B", 50)] := by
  have hkeys : sortAsc ((dTie.map (fun r => r.productLine)).dedup)
      = ["A", "B"] := by
    rw [show (dTie.map (fun r => r.productLine)).dedup = ["A", "B"] from rfl]
    rw [sortAsc, sortAsc, sortAsc, insertAsc, insertAsc,
      if_pos (le_of_lt strA_lt_strB)]
  have hfA : dTie.filter (fun r => decide (r.productLine = "A")) = [recA] := rfl
  have hfB : dTie.filter (fun r => decide (r.productLine = "B")) = [recB] := rfl
  rw [groupSum, hkeys]
  simp [hfA, hfB, recA, recB]

/-- C1 counterexample: on the frame `dTie` with two groups tied exactly at
50.0, the list putting key "B" before key "A" is an admissible output of
the unstable `sort_values(ascending=False).head(2)` of lines 191/209, yet
it violates the claimed ascending-key order of tied entries — the program
does not guarantee the tie-break. -/
theorem top_n_tie_break_cx :
    top_n (groupSum dTie (fun r => r.productLine) (fun r => r.sales)) 2
      [("B", (50 : ℚ)), ("A", 50)] ∧
    ¬ ([("B", (50 : ℚ)), ("A", 50)] : List (String × ℚ)).Pairwise
        (fun a b => b.2 < a.2 ∨ (b.2 = a.2 ∧ a.1 < b.1)) := by
  constructor
  · refine ⟨[("B", (50 : ℚ)), ("A", 50)], ⟨?_, ?_⟩, rfl⟩
    · rw [groupSum_dTie]
      exact List.Perm.swap _ _ _
    · refine List.pairwise_cons.mpr ⟨?_, ?_⟩ <;> simp
  · intro h
    rcases List.pairwise_cons.mp h with ⟨hhead, _⟩
    rcases hhead ("A", (50 : ℚ)) (List.mem_singleton_self _) with hlt | ⟨_, hk⟩
    · exact absurd hlt (lt_irrefl _)
    · exact absurd hk (lt_asymm strA_lt_strB)

/-- C1 amended: every admissible output of the unstable descending sort of
an aggregation result, truncated by `.head(n)`, has length
`min n (number of groups)` and is weakly descending by value; the relative
order of exactly-tied values is unspecified (pandas' default quicksort is
not stable), so the ascending-key tie-break is not guaranteed by the
program. -/
theorem top_n_admissible_sorted_and_length (df : List Record)
    (key : Record → String) (n : Nat) (out : List (String × ℚ))
    (h : top_n (groupSum df key (fun r => r.sales)) n out) :
    out.length = min n (groupSum df key (fun r => r.sales)).length ∧
    out.Pairwise (fun a b => b.2 ≤ a.2) := by
  rcases h with ⟨s, ⟨hperm, hsort⟩, rfl⟩
  exact ⟨by rw [List.length_take, hperm.length_eq],
    List.Pairwise.sublist (List.take_sublist n s) hsort⟩

/-- C1 witness: the amended statement at the one-group frame `d1`, with
the admissible sort output being the aggregation result itself. -/
theorem top_n_admissible_witness :
    (groupSum d1 (fun r => r.customerName) (fun r => r.sales)).length
      = min 3 (groupSum d1 (fun r => r.customerName) (fun r => r.sales)).length ∧
    (groupSum d1 (fun r => r.customerName) (fun r => r.sales)).Pairwise
      (fun a b => b.2 ≤ a.2) := by
  have hpair : (groupSum d1 (fun r => r.customerName) (fun r => r.sales)).Pairwise
      (fun a b : String × ℚ => b.2 ≤ a.2) := by
    rw [show groupSum d1 (fun r => r.customerName) (fun r => r.sales)
        = [("K", ((d1.filter (fun r => decide (r.customerName = "K"))).map
            (fun r => r.sales)).sum)] from rfl]
    simp
  exact top_n_admissible_sorted_and_length d1 (fun r => r.customerName) 3 _
    ⟨groupSum d1 (fun r => r.customerName) (fun r => r.sales),
      ⟨List.Perm.refl _, hpair⟩, rfl⟩

/-- C3: a record survives the filter of lines 116-121 iff it is in the
frame and each of its year, product line, deal size and country is a
member of the respective selected set; in particular an empty selection in
any one of the four dimensions empties the filtered frame. -/
theorem filteredDf_mem_and_empty (df : List Record) (s : FilterSpec)
    (r : Record) :
    (r ∈ filteredDf df s ↔
      r ∈ df ∧ r.year ∈ s.selectedYears ∧
      r.productLine ∈ s.selectedProductLines ∧
      r.dealSize ∈ s.selectedDealSizes ∧
      r.country ∈ s.selectedCountries) ∧
    ((s.selectedYears = [] ∨ s.selectedProductLines = [] ∨
      s.selectedDealSizes = [] ∨ s.selectedCountries = []) →
      filteredDf df s = []) := by
  constructor
  · simp [filteredDf, recordPasses, List.mem_filter, and_assoc]
  · intro h
    refine List.filter_eq_nil_iff.mpr (fun a _ => ?_)
    rcases h with h | h | h | h <;> simp [recordPasses, h]

/-- C3 witness: with an empty year selection (and non-empty selections in
the other three dimensions) the filtered frame is empty. -/
theorem filteredDf_empty_witness :
    filteredDf d5
      { selectedYears := [], selectedProductLines := ["Classic Cars"]
      , selectedDealSizes := ["Small"], selectedCountries := ["USA"] } = [] :=
  (filteredDf_mem_and_empty d5
    { selectedYears := [], selectedProductLines := ["Classic Cars"]
    , selectedDealSizes := ["Small"], selectedCountries := ["USA"] } rec1).2
    (Or.inl rfl)

/-- C4: summing the per-group values of the sum-statistic aggregation of
any filtered frame over any grouping dimension returns exactly the sum of
SALES over the whole filtered frame — grouping neither drops nor
double-counts rows. -/
theorem aggregation_partitions (df : List Record) (s : FilterSpec)
    (key : Record → String) :
    ((groupSum (filteredDf df s) key (fun r => r.sales)).map Prod.snd).sum
      = ((filteredDf df s).map (fun r => r.sales)).sum := by
  set sub := filteredDf df s with hsub
  have hmap : (groupSum sub key (fun r => r.sales)).map Prod.snd
      = (sortAsc ((sub.map key).dedup)).map
          (fun k => ((sub.filter (fun r => decide (key r = k))).map
            (fun r => r.sales)).sum) := by
    rw [groupSum, List.map_map]
    rfl
  rw [hmap]
  have hperm : ((sortAsc ((sub.map key).dedup)).map
      (fun k => ((sub.filter (fun r => decide (key r = k))).map
        (fun r => r.sales)).sum)).Perm
      (((sub.map key).dedup).map
        (fun k => ((sub.filter (fun r => decide (key r = k))).map
          (fun r => r.sales)).sum)) :=
    (sortAsc_perm _).map _
  rw [hperm.sum_eq]
  exact sum_groups key (fun r => r.sales) sub ((sub.map key).dedup)
    (List.nodup_dedup _)
    (fun r hr => List.mem_dedup.mpr (List.mem_map_of_mem key hr))

/-- C8: the filter of lines 116-121 is idempotent — filtering an
already-filtered frame with the same specification returns it unchanged. -/
theorem filteredDf_idempotent (df : List Record) (s : FilterSpec) :
    filteredDf (filteredDf df s) s = filteredDf df s := by
  rw [filteredDf, filteredDf]
  induction df with
  | nil => simp
  | cons r df ih =>
    by_cases h : recordPasses s r
    · simp [List.filter_cons, h, ih]
    · simp [List.filter_cons, h, ih]

/-- C2 counterexample: on an empty frame `filtered_df['SALES'].mean()` is
pandas NaN (modelled `none`), not the number 0 — the code has no zero-guard
(the dashboard instead returns early at line 123 before the KPI block when
the filtered frame is empty). -/
theorem compute_kpis_empty_avg_not_zero :
    (compute_kpis []).avg_order_value = none ∧
    (compute_kpis []).avg_order_value ≠ some 0 := by
  constructor
  · rfl
  · intro h
    exact Option.noConfusion h

/-- C2 amended: for a non-empty frame the average order value equals total
sales divided by the number of records; for the empty frame it is NaN
(`none`), never computed on screen because `main` returns early. -/
theorem compute_kpis_avg_nonempty (df : List Record) (h : df ≠ []) :
    (compute_kpis df).avg_order_value
      = some ((compute_kpis df).total_sales / (df.length : ℚ)) := by
  have hlen : (df.map (fun r => r.sales)).length = df.length := List.length_map _ _
  rw [compute_kpis]
  simp only [seriesMean, hlen]
  rw [if_neg (fun h0 => h (List.length_eq_zero.mp h0))]

/-- C2 witness: the amended statement at the one-row frame `d1`. -/
theorem compute_kpis_avg_witness :
    (compute_kpis d1).avg_order_value
      = some ((compute_kpis d1).total_sales / (d1.length : ℚ)) :=
  compute_kpis_avg_nonempty d1 (List.cons_ne_nil _ _)

/-- C10: the five values written to the export's Summary sheet
(lines 364-375) coincide with the five on-screen KPI values
(lines 130-150) for every frame, being computed by the same formulas. -/
theorem export_summary_matches_kpis (df : List Record) :
    (convert_df_to_excel_summary df).totalSalesValue
        = (compute_kpis df).total_sales ∧
    (convert_df_to_excel_summary df).totalOrdersValue
        = (compute_kpis df).total_orders ∧
    (convert_df_to_excel_summary df).avgOrderValueValue
        = (compute_kpis df).avg_order_value ∧
    (convert_df_to_excel_summary df).totalCustomersValue
        = (compute_kpis df).total_customers ∧
    (convert_df_to_excel_summary df).totalProductsValue
        = (compute_kpis df).total_products :=
  ⟨rfl, rfl, rfl, rfl, rfl⟩

/-- C9 amended: normalization fails (with an uncaught KeyError surfaced to
the caller and no frame produced) exactly when the ORDERDATE column is
absent; the other nine required columns are never checked by `load_data`. -/
theorem load_data_fails_iff_no_orderdate (cols : List String) :
    (∃ e, load_data cols = .error e) ↔ "ORDERDATE" ∉ cols := by
  by_cases h : "ORDERDATE" ∈ cols <;> simp [load_data, h]

/-- C9 counterexample: a frame missing the required SALES column (but
having ORDERDATE) is normalized successfully — `load_data` does not fail,
contradicting the claim that a missing required column always raises. -/
theorem load_data_missing_sales_succeeds :
    "SALES" ∈ requiredColumns ∧
    "SALES" ∉ ["ORDERDATE", "ORDERNUMBER", "PRODUCTLINE", "DEALSIZE",
      "COUNTRY", "CUSTOMERNAME", "PRODUCTCODE", "QUANTITYORDERED",
      "PRICEEACH"] ∧
    load_data ["ORDERDATE", "ORDERNUMBER", "PRODUCTLINE", "DEALSIZE",
      "COUNTRY", "CUSTOMERNAME", "PRODUCTCODE", "QUANTITYORDERED",
      "PRICEEACH"]
      = .ok ["ORDERDATE", "ORDERNUMBER", "PRODUCTLINE", "DEALSIZE",
        "COUNTRY", "CUSTOMERNAME", "PRODUCTCODE", "QUANTITYORDERED",
        "PRICEEACH", "Year", "Month", "MonthName", "Quarter", "Weekday"] := by
  exact ⟨by decide, by decide, rfl⟩

theorem dayNameOfIndex_mem (i : Nat) : dayNameOfIndex i ∈ weekdayNames := by
  rw [dayNameOfIndex]
  split_ifs <;> simp [weekdayNames]

/-- C7: the derived calendar fields are pure functions of the order date;
for every month in 1..12 the derived quarter equals `⌈month / 3⌉`, the
derived weekday name is one of Monday..Sunday, and normalizing 2004-03-15
reads back year 2004, quarter 1 and weekday Monday. -/
theorem normalizer_calendar (dt : OrderDate) (h1 : 1 ≤ dt.month)
    (h2 : dt.month ≤ 12) :
    ((deriveCalendar dt).quarter : ℤ) = ⌈(dt.month : ℚ) / 3⌉ ∧
    (deriveCalendar dt).weekday ∈ weekdayNames ∧
    deriveCalendar ⟨2004, 3, 15⟩
      = { year := 2004, month := 3, monthLabel := "March"
        , quarter := 1, weekday := "Monday" } := by
  obtain ⟨y, m, d⟩ := dt
  refine ⟨?_, dayNameOfIndex_mem _, by decide⟩
  simp only [deriveCalendar] at h1 h2 ⊢
  interval_cases m <;> rw [eq_comm, Int.ceil_eq_iff] <;> norm_num

/-- C7 witness: the calendar properties at the concrete date 2004-03-15. -/
theorem normalizer_calendar_witness :
    ((deriveCalendar ⟨2004, 3, 15⟩).quarter : ℤ)
        = ⌈((⟨2004, 3, 15⟩ : OrderDate).month : ℚ) / 3⌉ ∧
    (deriveCalendar ⟨2004, 3, 15⟩).weekday ∈ weekdayNames ∧
    deriveCalendar ⟨2004, 3, 15⟩
      = { year := 2004, month := 3, monthLabel := "March"
        , quarter := 1, weekday := "Monday" } :=
  normalizer_calendar ⟨2004, 3, 15⟩ (by decide) (by decide)

/-- C6 amended: every key of a `groupby` sum (line 162 and the grouped sum
part of lines 334-336) is an observed value of the grouping dimension in
the frame — the plain aggregation emits no zero-record group.  (The
weekday view then reindexes over the full week; see the counterexample.) -/
theorem groupSum_keys_observed (df : List Record) (key : Record → String)
    (val : Record → ℚ) (k : String)
    (h : k ∈ (groupSum df key val).map Prod.fst) :
    ∃ r ∈ df, key r = k := by
  rw [groupSum_keys] at h
  have h' : k ∈ (df.map key).dedup := (sortAsc_perm _).mem_iff.mp h
  rcases List.mem_map.mp (List.mem_dedup.mp h') with ⟨r, hr, hrk⟩
  exact ⟨r, hr, hrk⟩

/-- C6 witness: on the one-row Monday frame `d1`, the only aggregation key
"Monday" is indeed an observed weekday of the frame. -/
theorem groupSum_keys_observed_witness :
    ∃ r ∈ d1, r.weekday = "Monday" :=
  groupSum_keys_observed d1 (fun r => r.weekday) (fun r => r.sales)
    "Monday" (by decide)

/-- C6 counterexample: the weekday output of lines 334-336 is reindexed
over the full Monday..Sunday week, so on the Monday-only frame `d1` the
key "Tuesday" — a group with zero records — appears in the output (with a
NaN value, modelled `none`), contradicting the claim that no zero-record
key is ever emitted. -/
theorem weekday_reindex_emits_absent_key :
    ("Tuesday", (none : Option ℚ)) ∈ weekday_sales d1 ∧
    "Tuesday" ∉ d1.map (fun r => r.weekday) := by
  constructor
  · have h : weekday_sales d1
        = weekdayNames.map
            (fun w => (w, lookupValue
              (groupSum d1 (fun r => r.weekday) (fun r => r.sales)) w)) := rfl
    rw [h]
    have h2 : lookupValue
        (groupSum d1 (fun r => r.weekday) (fun r => r.sales)) "Tuesday"
        = none := rfl
    rw [show ("Tuesday", (none : Option ℚ))
        = ("Tuesday", lookupValue
            (groupSum d1 (fun r => r.weekday) (fun r => r.sales)) "Tuesday")
      from by rw [h2]]
    exact List.mem_map_of_mem _ (by decide)
  · decide

theorem round2_eq_of {x : ℚ} {f : ℤ} (h1 : (f : ℚ) ≤ x * 100)
    (h2 : x * 100 - f < 1 / 2) : round2 x = (f : ℚ) / 100 := by
  have hub : x * 100 < f + 1 := by linarith
  have hf : ⌊x * 100⌋ = f := Int.floor_eq_iff.mpr ⟨h1, hub⟩
  simp only [round2, roundHalfEven, hf]
  rw [if_pos h2]

/-- C5 amended: every row of the customer summary has a nonzero distinct
order count (each emitted group holds at least one record, and every
record carries an order number), and its Revenue per Order equals
Total Sales divided by Total Orders rounded to two decimals; the
zero-denominator case never occurs in a produced row (and the source has
no explicit zero guard). -/
theorem summarize_rpo (df : List Record) (row : SummaryRow)
    (h : row ∈ summarize df) :
    row.totalOrders ≠ 0 ∧
    row.revenuePerOrder = round2 (row.totalSales / (row.totalOrders : ℚ)) := by
  rw [summarize] at h
  have h1 := List.mem_of_mem_take h
  have h2 := (sortDescBy_perm (fun row : SummaryRow => row.totalSales) _).mem_iff.mp h1
  rcases List.mem_map.mp h2 with ⟨k, hk, hrow⟩
  subst hrow
  refine ⟨?_, rfl⟩
  have hk' : k ∈ (df.map (fun r => r.customerName)).dedup :=
    (sortAsc_perm _).mem_iff.mp hk
  rcases List.mem_map.mp (List.mem_dedup.mp hk') with ⟨r, hr, hrk⟩
  have hrg : r ∈ df.filter (fun x => decide (x.customerName = k)) :=
    List.mem_filter.mpr ⟨hr, by simp [hrk]⟩
  have hne : df.filter (fun x => decide (x.customerName = k)) ≠ [] :=
    List.ne_nil_of_mem hrg
  intro h0
  have hdedup : ((df.filter (fun x => decide (x.customerName = k))).map
      (fun r => r.orderNumber)).dedup = [] :=
    List.length_eq_zero.mp h0
  have hmap := (List.dedup_eq_nil _).mp hdedup
  exact hne (List.map_eq_nil_iff.mp hmap)

/-- C5 witness: the amended statement at the one-customer frame `d1`. -/
theorem summarize_rpo_witness :
    (customerRow d1 "K").totalOrders ≠ 0 ∧
    (customerRow d1 "K").revenuePerOrder
      = round2 ((customerRow d1 "K").totalSales
          / ((customerRow d1 "K").totalOrders : ℚ)) :=
  summarize_rpo d1 (customerRow d1 "K") (List.mem_singleton.mpr rfl)

/-- C5 counterexample: on the frame `d5` (one customer, three distinct
orders, 100.0 total sales) the produced Revenue per Order is the rounded
33.33, not Total Sales / Total Orders = 100/3 — the division is rounded to
two decimals by `.round(2)`, so the unrounded equality of the claim fails. -/
theorem summarize_rounding_cx :
    (summarize d5).map
        (fun row => (row.totalSales, row.totalOrders, row.revenuePerOrder))
      = [((100 : ℚ), 3, (3333 : ℚ) / 100)] ∧
    ((3333 : ℚ) / 100) ≠ (100 : ℚ) / 3 := by
  have e1 : round2 (100 : ℚ) = 100 := by
    rw [round2_eq_of (x := (100 : ℚ)) (f := 10000) (by norm_num) (by norm_num)]
    norm_num
  have e2 : round2 ((100 : ℚ) / 3) = 3333 / 100 := by
    rw [round2_eq_of (x := (100 : ℚ) / 3) (f := 3333) (by norm_num)
      (by norm_num)]
    norm_num
  have hg : d5.filter (fun r => decide (r.customerName = "K")) = d5 := rfl
  have hsum : (d5.map (fun r => r.sales)).sum = (100 : ℚ) := by
    norm_num [d5, rec1, rec2, rec3]
  have hords : nunique (d5.map (fun r => r.orderNumber)) = 3 := rfl
  have hrow : customerRow d5 "K"
      = { key := "K", totalSales := 100, avgOrderValue := 3333 / 100
        , totalOrders := 3, totalQuantity := 8
        , revenuePerOrder := 3333 / 100 } := by
    simp only [customerRow, hg, hsum, hords]
    norm_num [e1, e2, d5, rec1, rec2, rec3]
  constructor
  · rw [show summarize d5 = [customerRow d5 "K"] from rfl, hrow]
    rfl
  · norm_num

end SalesDashboard
